import Mathlib

/-!
Shallow embedding of `conda_smithy/run_local_build.py` (loopbio/conda-smithy).

The source is a local CI-build orchestrator.  External effects (the
filesystem, `subprocess.call` / `check_call`, `os.environ`, the clock) are
modelled by explicit oracle structures passed in as arguments; Python
exceptions are modelled with `Except PyExc`.  Each Lean definition mirrors a
Python function of the source and keeps its name where Lean allows it.
-/

namespace RunLocalBuild

/-- Python exceptions that the source can raise or catch.
`osError` stands for `OSError`/`IOError` (aliases in Python 3),
`calledProcessError` for `subprocess.CalledProcessError`,
`yamlError` for a parse error raised by `yaml.load`,
`attributeError` for `AttributeError` (e.g. `.get` on a non-mapping),
`exception` for the plain `Exception(msg)` raised by `_ensure_writable_dir`. -/
inductive PyExc where
  | osError
  | calledProcessError (cmd : List String) (returncode : Int)
  | yamlError
  | attributeError
  | exception (msg : String)
deriving Repr, DecidableEq

/-- Observable behaviour of launching one external process: either the
process starts and exits with a code, or the launch itself fails
(missing executable/script), which `subprocess` surfaces as `OSError`. -/
inductive ProcOutcome where
  | exit (code : Int)
  | launchFailure
deriving Repr, DecidableEq

/-- `subprocess.call`: returns the exit code; raises `OSError` when the
program cannot be launched (e.g. the script file is missing). -/
def pyCall : ProcOutcome → Except PyExc Int
  | .exit code => .ok code
  | .launchFailure => .error .osError

/-- `subprocess.check_call(cmd)`: raises `OSError` on launch failure and
`CalledProcessError` on a non-zero exit code. -/
def pyCheckCall (cmd : List String) : ProcOutcome → Except PyExc Unit
  | .exit code => if code = 0 then .ok () else .error (.calledProcessError cmd code)
  | .launchFailure => .error .osError

/-- `os.path.join(path0, *parts)` (with `os.path.expanduser` modelled as the
identity: paths in this development carry no `~`). -/
def pathJoin (path0 : String) (parts : List String) : String :=
  parts.foldl (fun acc p => acc ++ "/" ++ p) path0

/-- Filesystem oracle for one `_ensure_writable_dir` call: what the `os.path`
predicates and `os.makedirs` would report for the resolved path, including
the re-check after a failed `makedirs` (a concurrent caller may have created
the path in between). -/
structure EnsureFS where
  pathExists : Bool
  isDir : Bool
  writable : Bool
  makedirs : Except PyExc Unit
  existsAfterFailure : Bool
  isDirAfter : Bool
  writableAfter : Bool
deriving Repr

/-- The inner `check_path` of `_ensure_writable_dir`: raises unless the path
is a writable directory. -/
def check_path (isDir writable : Bool) (path : String) : Except PyExc Unit :=
  if !isDir then .error (.exception (path ++ " exists but it is not a directory"))
  else if !writable then .error (.exception (path ++ " is a directory but it is not writable"))
  else .ok ()

/-- `_ensure_writable_dir(path0, *parts)`: resolve the path; if it exists,
validate it with `check_path`; otherwise try `os.makedirs`, and on failure
re-check existence (tolerating a concurrent creator) before re-raising. -/
def _ensure_writable_dir (fs : EnsureFS) (path0 : String) (parts : List String) :
    Except PyExc String :=
  let path := pathJoin path0 parts
  if fs.pathExists then
    match check_path fs.isDir fs.writable path with
    | .error e => .error e
    | .ok () => .ok path
  else
    match fs.makedirs with
    | .ok () => .ok path
    | .error e =>
      if fs.existsAfterFailure then
        match check_path fs.isDirAfter fs.writableAfter path with
        | .error e2 => .error e2
        | .ok () => .ok path
      else .error e

/-- The `LinuxJob` namedtuple. -/
structure LinuxJob where
  recipe_root : String
  name : String
  envvars : List (String × String)
  docker_executable : String
  docker_image : String
deriving Repr, DecidableEq

/-- The tuple `(job, retcode, log_file)` returned by `_run_one_linux_job`. -/
abbrev JobResult := LinuxJob × Int × String

/-- The `docker` section of `conda-forge.yml` as `yaml.load` would deliver it:
either not a mapping (so `.get` raises `AttributeError`) or a mapping with
optional `executable` and `image` entries. -/
inductive DockerSection where
  | scalar
  | mapping (executable : Option String) (image : Option String)
deriving Repr, DecidableEq

/-- Possible outcomes of opening and parsing `conda-forge.yml`:
an `IOError` on open/read, a parse failure raised by `yaml.load`, a document
that is not a mapping (so `.get` raises `AttributeError`), or a mapping with
an optional `docker` section. -/
inductive CondaForgeYml where
  | ioError
  | parseFailure
  | scalar
  | mapping (docker : Option DockerSection)
deriving Repr, DecidableEq

/-- `_collect_docker_info`: read `conda-forge.yml` and extract
`docker.executable` / `docker.image`, substituting defaults.  Only `IOError`
is caught (defaults substituted); a parse failure or an `AttributeError`
from `.get` on a non-mapping propagates. -/
def _collect_docker_info (cfg : CondaForgeYml) : Except PyExc (String × String) :=
  match cfg with
  | .ioError => .ok ("docker", "condaforge/linux-anvil")
  | .parseFailure => .error .yamlError
  | .scalar => .error .attributeError
  | .mapping docker =>
    match docker with
    | none => .ok ("docker", "condaforge/linux-anvil")
    | some .scalar => .error .attributeError
    | some (.mapping exe img) =>
      .ok (exe.getD "docker", img.getD "condaforge/linux-anvil")

/-- One entry of the `jobs` mapping in `.circleci/config.yml`: its optional
`environment` is a sequence of single-entry mappings, each already reduced to
the `(key, value)` pair that `envvar.popitem()` yields. -/
structure JobConfig where
  environment : List (String × String)
deriving Repr, DecidableEq

/-- Python `<` on characters: comparison of code points. -/
def charLtB (a b : Char) : Bool := a.toNat < b.toNat

/-- Python `<` on strings as character lists: lexicographic by code point. -/
def strLtAux : List Char → List Char → Bool
  | _, [] => false
  | [], _ :: _ => true
  | a :: as, b :: bs => if charLtB a b then true else if a = b then strLtAux as bs else false

/-- Python `<` on strings: lexicographic comparison. -/
def pyStrLt (a b : String) : Bool := strLtAux a.data b.data

/-- Insert one `(name, config)` item into a list sorted by descending name,
mirroring what `sorted(items, reverse=True)` produces on unique keys. -/
def insertDescByName (x : String × JobConfig) :
    List (String × JobConfig) → List (String × JobConfig)
  | [] => [x]
  | y :: ys => if pyStrLt y.1 x.1 then x :: y :: ys else y :: insertDescByName x ys

/-- `sorted(circleci_config['jobs'].items(), reverse=True)`: the job items
sorted by descending job name (names are dict keys, hence unique, so tuple
comparison never reaches the configs). -/
def sortDescByName : List (String × JobConfig) → List (String × JobConfig)
  | [] => []
  | x :: xs => insertDescByName x (sortDescByName xs)

/-- Oracle for `_collect_linux_jobs`: the parsed `conda-forge.yml` and the
`jobs` mapping of `.circleci/config.yml` in its on-disk (declared) order, or
`none` when that required file is absent (its `open` raises `IOError`). -/
structure ExtractWorld where
  condaForgeYml : CondaForgeYml
  circleciJobs : Option (List (String × JobConfig))
deriving Repr

/-- `_collect_linux_jobs`: collect docker info, read `.circleci/config.yml`
(its absence propagates as an error), and build one `LinuxJob` per entry of
`sorted(circleci_config['jobs'].items(), reverse=True)`. -/
def _collect_linux_jobs (w : ExtractWorld) (recipe_root : String) :
    Except PyExc (List LinuxJob) :=
  match _collect_docker_info w.condaForgeYml with
  | .error e => .error e
  | .ok (docker_executable, docker_image) =>
    match w.circleciJobs with
    | none => .error .osError
    | some items =>
      .ok ((sortDescByName items).map fun item =>
        ⟨recipe_root, item.1, item.2.environment, docker_executable, docker_image⟩)

/-- An element of the `only` job filter: the CLI passes job names (strings)
and positional indices (strings or ints). -/
inductive FilterElem where
  | str (s : String)
  | int (n : Nat)
deriving Repr, DecidableEq

/-- `job.name in only`: a Python string equals only a string element. -/
def nameInOnly (name : String) (only : List FilterElem) : Bool :=
  only.any fun e => match e with
    | .str s => s = name
    | .int _ => false

/-- `str(i) in only`. -/
def strIdxInOnly (i : Nat) (only : List FilterElem) : Bool :=
  only.any fun e => match e with
    | .str s => s = toString i
    | .int _ => false

/-- `i in only`: a Python int equals only an int element. -/
def intIdxInOnly (i : Nat) (only : List FilterElem) : Bool :=
  only.any fun e => match e with
    | .str _ => false
    | .int n => n = i

/-- The retention test of the filtering list comprehension:
`job.name in only or str(i) in only or i in only`. -/
def keepJob (only : List FilterElem) (i : Nat) (job : LinuxJob) : Bool :=
  nameInOnly job.name only || strIdxInOnly i only || intIdxInOnly i only

/-- The filtering comprehension
`[job for i, job in enumerate(jobs) if ...]`, with `i` the running index. -/
def filterJobsAux (only : List FilterElem) (i : Nat) : List LinuxJob → List LinuxJob
  | [] => []
  | job :: rest =>
    if keepJob only i job then job :: filterJobsAux only (i + 1) rest
    else filterJobsAux only (i + 1) rest

/-- The job-filtering step of `run_linux_local`: `if only:` guards the
comprehension, so an empty filter retains every job. -/
def filterJobs (jobs : List LinuxJob) (only : List FilterElem) : List LinuxJob :=
  if only.isEmpty then jobs else filterJobsAux only 0 jobs

/-- `env = os.environ.copy(); for k, v in job.envvars: env[k] = v` —
overlay an ordered pair sequence onto a base environment mapping;
a later assignment to the same key overwrites the earlier one. -/
def buildEnv (base : String → Option String) (envvars : List (String × String)) :
    String → Option String :=
  envvars.foldl (fun env kv => fun x => if x = kv.1 then some kv.2 else env x) base

/-- The value of the last pair with key `k` in an env-var sequence, if any:
the value a Python dict holds at `k` after the overlay loop. -/
def lastVal (k : String) : List (String × String) → Option String
  | [] => none
  | p :: rest =>
    match lastVal k rest with
    | some v => some v
    | none => if p.1 = k then some p.2 else none

/-- `str(datetime.datetime.now()).replace(' ', '_').replace(':', '-').replace('.', '-')`:
each replacement maps one character to one character, so the chain is the
character-wise substitution `' '↦'_'`, `':'↦'-'`, `'.'↦'-'`. -/
def timestampOf (now : String) : String :=
  ⟨now.data.map fun c =>
    if c = ' ' then '_' else if c = ':' then '-' else if c = '.' then '-' else c⟩

/-- Oracle for one `_run_one_linux_job` execution: the `os.environ` snapshot,
the filesystem state seen by `_ensure_writable_dir` for the log directory,
the clock value, and the behaviour of `subprocess.call` on
`ci_support/run_docker_build.sh` under the constructed environment. -/
structure JobWorld where
  environ : String → Option String
  logsFS : EnsureFS
  now : String
  callScript : (String → Option String) → ProcOutcome

/-- `_run_one_linux_job(job)`: build the overlaid environment, ensure the log
directory `<recipe_root>/build_artefacts/build_logs/linux`, compute the
timestamped log file path, `subprocess.call` the build script and return
`(job, retcode, log_file)`.  Nothing is caught here: an `OSError` from a
failed launch, like a failure of `_ensure_writable_dir`, propagates. -/
def _run_one_linux_job (jw : JobWorld) (job : LinuxJob) : Except PyExc JobResult :=
  let env := buildEnv jw.environ job.envvars
  match _ensure_writable_dir jw.logsFS job.recipe_root
      ["build_artefacts", "build_logs", "linux"] with
  | .error e => .error e
  | .ok logs_dir =>
    let log_file := pathJoin logs_dir [job.name ++ "." ++ timestampOf jw.now]
    match pyCall (jw.callScript env) with
    | .error e => .error e
    | .ok retcode => .ok (job, retcode, log_file)

/-- Python tuple comparison on `(executable, image)` pairs: lexicographic. -/
def pairLt (a b : String × String) : Bool :=
  if pyStrLt a.1 b.1 then true
  else if a.1 = b.1 then pyStrLt a.2 b.2
  else false

/-- Insert a pair into an ascending duplicate-free list, keeping it
ascending and duplicate-free. -/
def insertPair (x : String × String) :
    List (String × String) → List (String × String)
  | [] => [x]
  | y :: ys =>
    if x = y then y :: ys
    else if pairLt x y then x :: y :: ys
    else y :: insertPair x ys

/-- `sorted(set(pairs))`: the distinct pairs in ascending order. -/
def sortedSet (l : List (String × String)) : List (String × String) :=
  l.foldr insertPair []

/-- The sequential pull loop
`for docker_executable, docker_image in images: check_call([..., 'pull', ...])`.
Returns the `check_call` outcome together with the list of pull commands
actually issued, in order; the loop stops at the first failing pull. -/
def pullLoop (pull : String → String → ProcOutcome) :
    List (String × String) → Except PyExc Unit × List (String × String)
  | [] => (.ok (), [])
  | (exe, img) :: rest =>
    match pyCheckCall [exe, "pull", img] (pull exe img) with
    | .ok () =>
      let (r, issued) := pullLoop pull rest
      (r, (exe, img) :: issued)
    | .error e => (.error e, [(exe, img)])

/-- `images = sorted(set((job.docker_executable, job.docker_image) for job in jobs))`. -/
def imagesOf (jobs : List LinuxJob) : List (String × String) :=
  sortedSet (jobs.map fun j => (j.docker_executable, j.docker_image))

/-- The image pre-pull step of `run_linux_local`: skipped under
`no_docker_pull`, otherwise pull the sorted deduplicated
`(executable, image)` pairs of the filtered jobs sequentially. -/
def pullPhase (no_docker_pull : Bool) (pull : String → String → ProcOutcome)
    (jobs : List LinuxJob) : Except PyExc Unit × List (String × String) :=
  if no_docker_pull then (.ok (), [])
  else pullLoop pull (imagesOf jobs)

/-- `multiprocessing.dummy.Pool(n_threads).map(_run_one_linux_job, jobs)`:
every submitted job executes; results come back in input order; the first
exception (in input order) is re-raised by `map`.  The second component
records the executed jobs' names.  The pool size does not change the
observable outcome.  Job execution `i` draws on the oracle `jw i`. -/
def poolMapRun (jw : Nat → JobWorld) (i : Nat) :
    List LinuxJob → Except PyExc (List JobResult) × List String
  | [] => (.ok [], [])
  | job :: rest =>
    let r0 := _run_one_linux_job (jw i) job
    let (res, executed) := poolMapRun jw (i + 1) rest
    (match r0, res with
     | .ok r, .ok rs => .ok (r :: rs)
     | .error e, _ => .error e
     | .ok _, .error e => .error e,
     job.name :: executed)

/-- The observable effect trace of one `run_linux_local` invocation:
the pull commands issued, the names of the jobs whose runner was invoked
(warm-up first, then pool order), and the aggregated `results` list as
printed in the summary report (empty when the run aborted first). -/
structure Trace where
  pulls : List (String × String)
  executed : List String
  results : List JobResult
deriving Repr

/-- Oracle for one `run_linux_local` invocation. -/
structure RunWorld where
  rerender : ProcOutcome
  extract : ExtractWorld
  pull : String → String → ProcOutcome
  artefactsFS : EnsureFS
  srcCacheIsDir : Bool
  warmJob : JobWorld
  poolJob : Nat → JobWorld

/-- The re-render step of `run_linux_local`:
`try: check_call(['conda-smithy', 'rerender', ...]) except OSError: print(warning)`.
Only `OSError` (missing binary) is caught; a `CalledProcessError` from a
non-zero exit is not an `OSError` and propagates. -/
def rerenderStep (no_rerender : Bool) (outcome : ProcOutcome) (recipe_root : String) :
    Except PyExc Unit :=
  if no_rerender then .ok ()
  else
    match pyCheckCall ["conda-smithy", "rerender", "--feedstock_directory", recipe_root]
        outcome with
    | .ok () => .ok ()
    | .error .osError => .ok ()
    | .error e => .error e

set_option linter.unusedVariables false in
/-- `run_linux_local`: re-render, collect, filter, pre-pull, ensure the
artefact root, warm-up (when `safe` or the `src_cache` directory is absent),
pool-run all filtered jobs, print the summary.  The first component is the
Python return value: `some []` from the explicit `return []` of the no-jobs
path, and `none` (Python `None`) from the main path, whose final statement is
`print('Done')` with no `return`.  The `Trace` records the observable
effects. -/
def run_linux_local (w : RunWorld) (recipe_root : String)
    (no_rerender no_docker_pull : Bool) (n_threads : Nat) (safe : Bool)
    (only : List FilterElem) : Except PyExc (Option (List JobResult)) × Trace :=
  match rerenderStep no_rerender w.rerender recipe_root with
  | .error e => (.error e, ⟨[], [], []⟩)
  | .ok () =>
    match _collect_linux_jobs w.extract recipe_root with
    | .error e => (.error e, ⟨[], [], []⟩)
    | .ok jobs0 =>
      match filterJobs jobs0 only with
      | [] => (.ok (some []), ⟨[], [], []⟩)
      | j0 :: rest =>
        match pullPhase no_docker_pull w.pull (j0 :: rest) with
        | (.error e, issued) => (.error e, ⟨issued, [], []⟩)
        | (.ok (), issued) =>
          match _ensure_writable_dir w.artefactsFS recipe_root ["build_artefacts"] with
          | .error e => (.error e, ⟨issued, [], []⟩)
          | .ok _artefacts_dir =>
            let warm : Except PyExc (List JobResult) × List String :=
              if safe || !w.srcCacheIsDir then
                match _run_one_linux_job w.warmJob j0 with
                | .error e => (.error e, [j0.name])
                | .ok r => (.ok [r], [j0.name])
              else (.ok [], [])
            match warm with
            | (.error e, wexec) => (.error e, ⟨issued, wexec, []⟩)
            | (.ok wres, wexec) =>
              match poolMapRun w.poolJob 0 (j0 :: rest) with
              | (.error e, pexec) => (.error e, ⟨issued, wexec ++ pexec, []⟩)
              | (.ok pres, pexec) =>
                let results := wres ++ pres
                (.ok none, ⟨issued, wexec ++ pexec, results⟩)

/-! ### Concrete fixtures used to evaluate the embedding -/

/-- An `EnsureFS` describing an already existing writable directory. -/
def okFS : EnsureFS := ⟨true, true, true, .ok (), true, true, true⟩

/-- A `JobWorld` where everything succeeds: empty base environment, writable
log directory, clock reading `"T"`, build script exiting 0. -/
def okJob : JobWorld :=
  { environ := fun _ => none, logsFS := okFS, now := "T",
    callScript := fun _ => .exit 0 }

/-- A `JobWorld` whose build-invocation script cannot be launched
(`ci_support/run_docker_build.sh` missing). -/
def launchFailJob : JobWorld := { okJob with callScript := fun _ => .launchFailure }

/-- A one-job extraction world: `conda-forge.yml` unreadable (defaults apply),
`.circleci/config.yml` declaring the single job `linux_64`. -/
def oneJobExtract : ExtractWorld :=
  ⟨.ioError, some [("linux_64", ⟨[("PY", "38")]⟩)]⟩

/-- An extraction world declaring jobs `alpha`, `beta` in that on-disk order. -/
def twoJobExtract : ExtractWorld :=
  ⟨.ioError, some [("alpha", ⟨[]⟩), ("beta", ⟨[]⟩)]⟩

/-- The job descriptor extracted from `oneJobExtract` for recipe root `"r"`. -/
def job64 : LinuxJob := ⟨"r", "linux_64", [("PY", "38")], "docker", "condaforge/linux-anvil"⟩

/-- The `alpha`/`beta` descriptors extracted from `twoJobExtract`. -/
def jobAlpha : LinuxJob := ⟨"r", "alpha", [], "docker", "condaforge/linux-anvil"⟩

def jobBeta : LinuxJob := ⟨"r", "beta", [], "docker", "condaforge/linux-anvil"⟩

/-- The log file `_run_one_linux_job` writes for `job64` under `okJob`. -/
def log64 : String := "r/build_artefacts/build_logs/linux/linux_64.T"

/-- An all-success `RunWorld` over `oneJobExtract`. -/
def okRun : RunWorld :=
  { rerender := .exit 0, extract := oneJobExtract, pull := fun _ _ => .exit 0,
    artefactsFS := okFS, srcCacheIsDir := true, warmJob := okJob,
    poolJob := fun _ => okJob }

/-- Like `okRun` but the rerender command exits with code 1. -/
def rerenderFailRun : RunWorld := { okRun with rerender := .exit 1 }

/-- Like `okRun` but over the two-job configuration. -/
def twoJobRun : RunWorld := { okRun with extract := twoJobExtract }

/-- Like `okRun` but `conda-forge.yml` exists and fails to parse. -/
def parseFailRun : RunWorld := { okRun with extract := ⟨.parseFailure, oneJobExtract.circleciJobs⟩ }

/-- Like `okRun` but `conda-forge.yml` parses to a non-mapping document. -/
def scalarCfgRun : RunWorld := { okRun with extract := ⟨.scalar, oneJobExtract.circleciJobs⟩ }

/-- Like `okRun` but the rerender command exits with code 2. -/
def rerenderFail2Run : RunWorld := { okRun with rerender := .exit 2 }

/-- An `EnsureFS` where the path is initially absent, `os.makedirs` fails, and
the path turns out to exist afterwards as a writable directory (a concurrent
caller created it in between). -/
def raceFS : EnsureFS :=
  ⟨false, false, false, .error (.exception "mkdir failed"), true, true, true⟩

/-- An `EnsureFS` where the path is absent, `os.makedirs` fails, and the path
still does not exist afterwards. -/
def noDirFS : EnsureFS :=
  ⟨false, false, false, .error (.exception "mkdir failed"), false, false, false⟩

/-! ### Order lemmas for the Python comparisons -/

theorem charLtB_irrefl (c : Char) : charLtB c c = false := by
  simp [charLtB]

theorem charLtB_asymm {a b : Char} (h : charLtB a b = true) : charLtB b a = false := by
  simp only [charLtB, decide_eq_true_eq, decide_eq_false_iff_not] at h ⊢
  omega

theorem charLtB_eq_of_not {a b : Char} (h1 : charLtB a b = false)
    (h2 : charLtB b a = false) : a = b := by
  simp only [charLtB, decide_eq_false_iff_not] at h1 h2
  have h : a.toNat = b.toNat := by omega
  exact Char.ext (UInt32.ext h)

theorem charLtB_trans {a b c : Char} (h1 : charLtB a b = true)
    (h2 : charLtB b c = true) : charLtB a c = true := by
  simp only [charLtB, decide_eq_true_eq] at h1 h2 ⊢
  omega

theorem strLtAux_irrefl : ∀ l : List Char, strLtAux l l = false
  | [] => rfl
  | c :: cs => by simp [strLtAux, charLtB_irrefl c, strLtAux_irrefl cs]

theorem strLtAux_asymm : ∀ a b : List Char,
    strLtAux a b = true → strLtAux b a = false
  | [], [] => by simp [strLtAux]
  | [], _ :: _ => by intro _; rfl
  | _ :: _, [] => by intro h; exact absurd h (by simp [strLtAux])
  | x :: xs, y :: ys => by
    intro h
    by_cases hxy : charLtB x y = true
    · have hyx : charLtB y x = false := charLtB_asymm hxy
      have hne : y ≠ x := by
        intro e; subst e; rw [charLtB_irrefl] at hxy; exact Bool.noConfusion hxy
      simp [strLtAux, hyx, hne]
    · by_cases heq : x = y
      · subst heq
        rw [strLtAux, if_neg hxy, if_pos rfl] at h
        rw [strLtAux, if_neg hxy, if_pos rfl]
        exact strLtAux_asymm xs ys h
      · rw [strLtAux, if_neg hxy, if_neg heq] at h
        exact Bool.noConfusion h

theorem strLtAux_eq_of_not : ∀ a b : List Char,
    strLtAux a b = false → strLtAux b a = false → a = b
  | [], [] => by intros; rfl
  | [], _ :: _ => by intro h _; exact absurd h (by simp [strLtAux])
  | _ :: _, [] => by intro _ h; exact absurd h (by simp [strLtAux])
  | x :: xs, y :: ys => by
    intro h1 h2
    by_cases hxy : charLtB x y = true
    · rw [strLtAux, if_pos hxy] at h1; exact Bool.noConfusion h1
    · by_cases hyx : charLtB y x = true
      · rw [strLtAux, if_pos hyx] at h2; exact Bool.noConfusion h2
      · have heq : x = y :=
          charLtB_eq_of_not (Bool.not_eq_true _ ▸ hxy) (Bool.not_eq_true _ ▸ hyx)
        subst heq
        rw [strLtAux, if_neg hxy, if_pos rfl] at h1
        rw [strLtAux, if_neg hxy, if_pos rfl] at h2
        rw [strLtAux_eq_of_not xs ys h1 h2]

theorem strLtAux_trans : ∀ a b c : List Char,
    strLtAux a b = true → strLtAux b c = true → strLtAux a c = true
  | _, _ :: _, [] => by intro _ h2; exact absurd h2 (by simp [strLtAux])
  | _, [], [] => by intro _ h2; exact absurd h2 (by simp [strLtAux])
  | [], [], _ :: _ => by intros; rfl
  | [], _ :: _, _ :: _ => by intros; rfl
  | _ :: _, [], _ :: _ => by intro h1 _; exact absurd h1 (by simp [strLtAux])
  | x :: xs, y :: ys, z :: zs => by
    intro h1 h2
    by_cases hxy : charLtB x y = true
    · by_cases hyz : charLtB y z = true
      · rw [strLtAux, if_pos (charLtB_trans hxy hyz)]
      · by_cases heq : y = z
        · subst heq; rw [strLtAux, if_pos hxy]
        · rw [strLtAux, if_neg hyz, if_neg heq] at h2; exact Bool.noConfusion h2
    · by_cases heq : x = y
      · subst heq
        rw [strLtAux, if_neg hxy, if_pos rfl] at h1
        by_cases hyz : charLtB x z = true
        · rw [strLtAux, if_pos hyz]
        · by_cases heq2 : x = z
          · subst heq2
            rw [strLtAux, if_neg hxy, if_pos rfl] at h2 ⊢
            exact strLtAux_trans xs ys zs h1 h2
          · rw [strLtAux, if_neg hyz, if_neg heq2] at h2; exact Bool.noConfusion h2
      · rw [strLtAux, if_neg hxy, if_neg heq] at h1; exact Bool.noConfusion h1

theorem pyStrLt_irrefl (s : String) : pyStrLt s s = false := strLtAux_irrefl s.data

theorem pyStrLt_asymm {a b : String} (h : pyStrLt a b = true) : pyStrLt b a = false :=
  strLtAux_asymm a.data b.data h

theorem pyStrLt_eq_of_not {a b : String} (h1 : pyStrLt a b = false)
    (h2 : pyStrLt b a = false) : a = b :=
  String.ext (strLtAux_eq_of_not a.data b.data h1 h2)

theorem pyStrLt_trans {a b c : String} (h1 : pyStrLt a b = true)
    (h2 : pyStrLt b c = true) : pyStrLt a c = true :=
  strLtAux_trans a.data b.data c.data h1 h2

theorem pairLt_irrefl (a : String × String) : pairLt a a = false := by
  simp [pairLt, pyStrLt_irrefl]

theorem pairLt_asymm {a b : String × String} (h : pairLt a b = true) :
    pairLt b a = false := by
  by_cases h1 : pyStrLt a.1 b.1 = true
  · have hba : pyStrLt b.1 a.1 = false := pyStrLt_asymm h1
    have hne : b.1 ≠ a.1 := by
      intro e; rw [e] at h1; rw [pyStrLt_irrefl] at h1; exact Bool.noConfusion h1
    simp [pairLt, hba, hne]
  · by_cases heq : a.1 = b.1
    · rw [pairLt, if_neg h1, if_pos heq] at h
      have h2 : pyStrLt b.1 a.1 = false := by
        rw [heq, pyStrLt_irrefl]
      simp [pairLt, h2, heq.symm, pyStrLt_asymm h, pyStrLt_irrefl]
    · rw [pairLt, if_neg h1, if_neg heq] at h; exact Bool.noConfusion h

theorem pairLt_connex {a b : String × String} (hne : a ≠ b) :
    pairLt a b = true ∨ pairLt b a = true := by
  by_cases h1 : pyStrLt a.1 b.1 = true
  · left; simp [pairLt, h1]
  · by_cases h2 : pyStrLt b.1 a.1 = true
    · right; simp [pairLt, h2]
    · have heq : a.1 = b.1 :=
        pyStrLt_eq_of_not (Bool.not_eq_true _ ▸ h1) (Bool.not_eq_true _ ▸ h2)
      have hne2 : a.2 ≠ b.2 := by
        intro e; exact hne (Prod.ext heq e)
      by_cases h3 : pyStrLt a.2 b.2 = true
      · left; rw [pairLt, if_neg h1, if_pos heq]; exact h3
      · by_cases h4 : pyStrLt b.2 a.2 = true
        · right; rw [pairLt, if_neg h2, if_pos heq.symm]; exact h4
        · exact absurd
            (pyStrLt_eq_of_not (Bool.not_eq_true _ ▸ h3) (Bool.not_eq_true _ ▸ h4)) hne2

theorem pairLt_trans {a b c : String × String} (h1 : pairLt a b = true)
    (h2 : pairLt b c = true) : pairLt a c = true := by
  by_cases hab : pyStrLt a.1 b.1 = true
  · by_cases hbc : pyStrLt b.1 c.1 = true
    · simp [pairLt, pyStrLt_trans hab hbc]
    · by_cases heq : b.1 = c.1
      · have hac : pyStrLt a.1 c.1 = true := heq ▸ hab
        simp [pairLt, hac]
      · rw [pairLt, if_neg hbc, if_neg heq] at h2; exact Bool.noConfusion h2
  · by_cases heq : a.1 = b.1
    · rw [pairLt, if_neg hab, if_pos heq] at h1
      by_cases hbc : pyStrLt b.1 c.1 = true
      · have : pyStrLt a.1 c.1 = true := heq ▸ hbc
        simp [pairLt, this]
      · by_cases heq2 : b.1 = c.1
        · rw [pairLt, if_neg hbc, if_pos heq2] at h2
          have hac : a.1 = c.1 := heq.trans heq2
          have hlt : pyStrLt a.2 c.2 = true := pyStrLt_trans h1 h2
          by_cases hax : pyStrLt a.1 c.1 = true
          · simp [pairLt, hax]
          · rw [pairLt, if_neg hax, if_pos hac]; exact hlt
        · rw [pairLt, if_neg hbc, if_neg heq2] at h2; exact Bool.noConfusion h2
    · rw [pairLt, if_neg hab, if_neg heq] at h1; exact Bool.noConfusion h1

theorem pairLt_ne {a b : String × String} (h : pairLt a b = true) : a ≠ b := by
  intro e; subst e; rw [pairLt_irrefl] at h; exact Bool.noConfusion h

/-! ### Lemmas about `sortedSet`, the pull loop, filtering, the env overlay,
and the runners -/

theorem mem_insertPair {z x : String × String} :
    ∀ l : List (String × String), z ∈ insertPair x l ↔ z = x ∨ z ∈ l
  | [] => by simp [insertPair]
  | y :: ys => by
    by_cases hxy : x = y
    · subst hxy
      simp only [insertPair, if_pos rfl]
      constructor
      · intro h; exact Or.inr h
      · rintro (h | h)
        · subst h; exact List.mem_cons_self _ _
        · exact h
    · by_cases hlt : pairLt x y = true
      · rw [insertPair, if_neg hxy, if_pos hlt]
        simp [or_comm, or_left_comm, eq_comm]
      · rw [insertPair, if_neg hxy, if_neg hlt]
        simp only [List.mem_cons, mem_insertPair ys]
        tauto

theorem pairwise_insertPair {x : String × String} :
    ∀ l : List (String × String),
      l.Pairwise (fun a b => pairLt a b = true) →
      (insertPair x l).Pairwise (fun a b => pairLt a b = true)
  | [], _ => by simp [insertPair]
  | y :: ys, hp => by
    rcases List.pairwise_cons.mp hp with ⟨hy, hys⟩
    by_cases hxy : x = y
    · subst hxy; rw [insertPair, if_pos rfl]; exact hp
    · by_cases hlt : pairLt x y = true
      · rw [insertPair, if_neg hxy, if_pos hlt]
        refine List.pairwise_cons.mpr ⟨?_, hp⟩
        intro z hz
        rcases List.mem_cons.mp hz with hz | hz
        · subst hz; exact hlt
        · exact pairLt_trans hlt (hy z hz)
      · rw [insertPair, if_neg hxy, if_neg hlt]
        refine List.pairwise_cons.mpr ⟨?_, pairwise_insertPair ys hys⟩
        intro z hz
        rcases (mem_insertPair ys).mp hz with hz | hz
        · subst hz
          rcases pairLt_connex hxy with h | h
          · exact absurd h hlt
          · exact h
        · exact hy z hz

theorem sortedSet_pairwise (l : List (String × String)) :
    (sortedSet l).Pairwise (fun a b => pairLt a b = true) := by
  induction l with
  | nil => simp [sortedSet]
  | cons x xs ih => exact pairwise_insertPair _ ih

theorem mem_sortedSet {z : String × String} :
    ∀ l : List (String × String), z ∈ sortedSet l ↔ z ∈ l
  | [] => by simp [sortedSet]
  | x :: xs => by
    rw [sortedSet, List.foldr_cons]
    rw [show List.foldr insertPair [] xs = sortedSet xs from rfl]
    rw [mem_insertPair, mem_sortedSet xs]
    simp

theorem sortedSet_nodup (l : List (String × String)) : (sortedSet l).Nodup :=
  (sortedSet_pairwise l).imp fun h => pairLt_ne h

theorem pullLoop_all_ok (pull : String → String → ProcOutcome) :
    ∀ l : List (String × String),
      (∀ p ∈ l, pull p.1 p.2 = .exit 0) → pullLoop pull l = (.ok (), l)
  | [], _ => rfl
  | (exe, img) :: rest, h => by
    have h0 : pull exe img = .exit 0 := h (exe, img) (List.mem_cons_self _ _)
    have hrec := pullLoop_all_ok pull rest fun p hp => h p (List.mem_cons_of_mem _ hp)
    simp [pullLoop, pyCheckCall, h0, hrec]

theorem filterJobsAux_sublist (only : List FilterElem) :
    ∀ (l : List LinuxJob) (i : Nat), (filterJobsAux only i l).Sublist l
  | [], _ => by simp [filterJobsAux]
  | job :: rest, i => by
    rw [filterJobsAux]
    by_cases h : keepJob only i job = true
    · rw [if_pos h]; exact (filterJobsAux_sublist only rest (i + 1)).cons₂ job
    · rw [if_neg h]; exact (filterJobsAux_sublist only rest (i + 1)).cons job

theorem mem_filterJobsAux (only : List FilterElem) {job : LinuxJob} :
    ∀ (l : List LinuxJob) (i : Nat),
      job ∈ filterJobsAux only i l ↔
        ∃ k, ∃ h : k < l.length, l.get ⟨k, h⟩ = job ∧ keepJob only (i + k) job = true
  | [], i => by simp [filterJobsAux]
  | j :: rest, i => by
    rw [filterJobsAux]
    by_cases h : keepJob only i j = true
    · rw [if_pos h]
      simp only [List.mem_cons, mem_filterJobsAux only rest (i + 1)]
      constructor
      · rintro (rfl | ⟨k, hk, hget, hkeep⟩)
        · exact ⟨0, by simp, by simpa using h⟩
        · exact ⟨k + 1, by simpa using hk, by simpa using hget, by
            have : i + 1 + k = i + (k + 1) := by omega
            rwa [this] at hkeep⟩
      · rintro ⟨k, hk, hget, hkeep⟩
        cases k with
        | zero => left; simpa using hget.symm
        | succ k' =>
          right
          refine ⟨k', by simpa using hk, by simpa using hget, ?_⟩
          have : i + (k' + 1) = i + 1 + k' := by omega
          rwa [this] at hkeep
    · rw [if_neg h]
      rw [mem_filterJobsAux only rest (i + 1)]
      constructor
      · rintro ⟨k, hk, hget, hkeep⟩
        exact ⟨k + 1, by simpa using hk, by simpa using hget, by
          have : i + 1 + k = i + (k + 1) := by omega
          rwa [this] at hkeep⟩
      · rintro ⟨k, hk, hget, hkeep⟩
        cases k with
        | zero =>
          exfalso
          have hj : j = job := by simpa using hget
          subst hj
          rw [show i + 0 = i from rfl] at hkeep
          exact h hkeep
        | succ k' =>
          refine ⟨k', by simpa using hk, by simpa using hget, ?_⟩
          have : i + (k' + 1) = i + 1 + k' := by omega
          rwa [this] at hkeep

theorem buildEnv_lastVal (k : String) :
    ∀ (l : List (String × String)) (base : String → Option String),
      buildEnv base l k =
        match lastVal k l with
        | some v => some v
        | none => base k
  | [], base => rfl
  | p :: rest, base => by
    rw [show buildEnv base (p :: rest) k =
          buildEnv (fun x => if x = p.1 then some p.2 else base x) rest k from rfl]
    rw [buildEnv_lastVal k rest]
    rcases hl : lastVal k rest with _ | v
    · rw [lastVal, hl]
      by_cases hk : p.1 = k
      · simp [hk]
      · have hk2 : ¬(k = p.1) := fun e => hk e.symm
        simp [hk, hk2]
    · rw [lastVal, hl]

theorem run_one_ok_fst {jw : JobWorld} {job : LinuxJob} {r : JobResult}
    (h : _run_one_linux_job jw job = .ok r) : r.1 = job := by
  rw [_run_one_linux_job] at h
  rcases hd : _ensure_writable_dir jw.logsFS job.recipe_root
      ["build_artefacts", "build_logs", "linux"] with e | d
  · rw [hd] at h; exact Except.noConfusion h
  · rw [hd] at h
    rcases hc : pyCall (jw.callScript (buildEnv jw.environ job.envvars)) with e | c
    · rw [hc] at h; exact Except.noConfusion h
    · rw [hc] at h
      have := Except.ok.inj h
      rw [← this]

theorem poolMapRun_cons_ok {jw : Nat → JobWorld} {i : Nat} {j : LinuxJob}
    {l : List LinuxJob} {r : JobResult} {rs : List JobResult} {ex : List String}
    (h : poolMapRun jw i (j :: l) = (.ok (r :: rs), ex)) :
    _run_one_linux_job (jw i) j = .ok r := by
  rw [poolMapRun] at h
  rcases h1 : _run_one_linux_job (jw i) j with e | r0
  · rw [h1] at h
    rcases h2 : poolMapRun jw (i + 1) l with ⟨res, ex2⟩
    rw [h2] at h
    simp at h
  · rw [h1] at h
    rcases h2 : poolMapRun jw (i + 1) l with ⟨res, ex2⟩
    rw [h2] at h
    rcases res with e | rs2
    · simp at h
    · simp at h
      rw [h.1.1]

/-! ### Claim theorems -/

/-- C1: the claim says `_collect_linux_jobs` lists jobs in on-disk declared
order.  The code instead iterates `sorted(jobs.items(), reverse=True)`:
for a configuration declaring `alpha` then `beta`, the extractor emits
`beta` then `alpha`, contradicting the declared order (and the code's own
comment `roundrip => we keep order of jobs`). -/
theorem collect_linux_jobs_reverse_sorts_names :
    twoJobExtract.circleciJobs = some [("alpha", ⟨[]⟩), ("beta", ⟨[]⟩)]
    ∧ (_collect_linux_jobs twoJobExtract "r").map (List.map LinuxJob.name)
        = .ok ["beta", "alpha"] :=
  ⟨rfl, rfl⟩

/-- C2: the claim says `run_linux_local` returns the full `JobResult` list.
On an all-success one-job run the aggregated results (as printed in the
summary) hold one `JobResult`, yet the function's Python return value is
`None` — the main path ends at `print('Done')` with no `return` statement —
while the no-jobs path does explicitly `return []`. -/
theorem run_linux_local_returns_none_despite_results :
    run_linux_local okRun "r" false false 1 false []
      = (.ok none,
         ⟨[("docker", "condaforge/linux-anvil")], ["linux_64"], [(job64, 0, log64)]⟩)
    ∧ (run_linux_local okRun "r" true true 1 true [.str "nope"]).1 = .ok (some []) :=
  ⟨rfl, rfl⟩

/-- C3 counterexample: when the build-invocation script cannot be launched,
`subprocess.call` raises `OSError`; `_run_one_linux_job` does not catch it,
so the claim that a launch failure yields a normal `JobResult` with an
abnormal exit code is false: the runner errors instead of returning. -/
theorem run_one_linux_job_launch_failure_raises :
    _run_one_linux_job launchFailJob job64 = .error .osError := rfl

/-- C3 amended: a build script that starts and exits with any code `c`
(zero or not) yields a normal `JobResult` carrying `c`; a launch failure
(e.g. missing script) raises `OSError`, which propagates out of
`_run_one_linux_job`. -/
theorem run_one_linux_job_exit_vs_launch (jw : JobWorld) (job : LinuxJob)
    (d : String)
    (hd : _ensure_writable_dir jw.logsFS job.recipe_root
        ["build_artefacts", "build_logs", "linux"] = .ok d) :
    (∀ c, jw.callScript (buildEnv jw.environ job.envvars) = .exit c →
        _run_one_linux_job jw job
          = .ok (job, c, pathJoin d [job.name ++ "." ++ timestampOf jw.now]))
    ∧ (jw.callScript (buildEnv jw.environ job.envvars) = .launchFailure →
        _run_one_linux_job jw job = .error .osError) := by
  constructor
  · intro c hc
    simp [_run_one_linux_job, hd, hc, pyCall]
  · intro hc
    simp [_run_one_linux_job, hd, hc, pyCall]

/-- Witness for the amended C3 theorem at a concrete world. -/
theorem run_one_linux_job_exit_vs_launch_w :
    _run_one_linux_job okJob job64 = .ok (job64, 0, log64) :=
  (run_one_linux_job_exit_vs_launch okJob job64
    "r/build_artefacts/build_logs/linux" rfl).1 0 rfl

/-- C4 counterexample: a rerender command that runs but exits with code 1
raises `CalledProcessError`, which the `except OSError` clause does not
catch: the whole run aborts, so the rerender step can be fatal. -/
theorem run_linux_local_rerender_nonzero_fatal :
    run_linux_local rerenderFailRun "r" false true 1 true []
      = (.error (.calledProcessError
            ["conda-smithy", "rerender", "--feedstock_directory", "r"] 1),
         ⟨[], [], []⟩) := rfl

/-- C4 amended: a missing rerender binary (`OSError`) is caught and the run
continues exactly as if the rerender had succeeded; a rerender exiting with
a non-zero code raises `CalledProcessError`, which is not an `OSError`, is
not caught, and aborts the run. -/
theorem rerender_missing_recovered_nonzero_fatal :
    (∀ (w : RunWorld) root nd nt safe only,
        run_linux_local { w with rerender := .launchFailure } root false nd nt safe only
          = run_linux_local { w with rerender := .exit 0 } root false nd nt safe only)
    ∧ (∀ (w : RunWorld) root nd nt safe only (c : Int), c ≠ 0 → w.rerender = .exit c →
        run_linux_local w root false nd nt safe only
          = (.error (.calledProcessError
                ["conda-smithy", "rerender", "--feedstock_directory", root] c),
             ⟨[], [], []⟩)) := by
  constructor
  · intro w root nd nt safe only
    rfl
  · intro w root nd nt safe only c hne hc
    simp [run_linux_local, rerenderStep, pyCheckCall, hc, hne]

/-- Witness for the amended C4 theorem at concrete worlds. -/
theorem rerender_missing_recovered_nonzero_fatal_w :
    run_linux_local { okRun with rerender := .launchFailure } "r" false true 1 true []
      = run_linux_local { okRun with rerender := .exit 0 } "r" false true 1 true []
    ∧ run_linux_local rerenderFail2Run "r" false true 1 true []
      = (.error (.calledProcessError
            ["conda-smithy", "rerender", "--feedstock_directory", "r"] 2),
         ⟨[], [], []⟩) :=
  ⟨rerender_missing_recovered_nonzero_fatal.1 okRun "r" true 1 true [],
   rerender_missing_recovered_nonzero_fatal.2 rerenderFail2Run "r" true 1 true []
     2 (by decide) rfl⟩

/-- C6: in `_ensure_writable_dir`, when the path did not exist and
`os.makedirs` fails, the guarantor re-checks existence: if a concurrent
caller created the path in between, it re-validates it (succeeding when the
path is a writable directory) instead of propagating the failure; if the
path still does not exist, the original failure is propagated. -/
theorem ensure_writable_dir_creation_race (fs : EnsureFS) (path0 : String)
    (parts : List String) (e : PyExc)
    (hne : fs.pathExists = false) (hmk : fs.makedirs = .error e) :
    (fs.existsAfterFailure = true → fs.isDirAfter = true → fs.writableAfter = true →
        _ensure_writable_dir fs path0 parts = .ok (pathJoin path0 parts))
    ∧ (fs.existsAfterFailure = false →
        _ensure_writable_dir fs path0 parts = .error e) := by
  constructor
  · intro h1 h2 h3
    simp [_ensure_writable_dir, check_path, hne, hmk, h1, h2, h3]
  · intro h1
    simp [_ensure_writable_dir, hne, hmk, h1]

/-- Witness for C6 at concrete filesystem states. -/
theorem ensure_writable_dir_creation_race_w :
    _ensure_writable_dir raceFS "r" ["build_artefacts"] = .ok "r/build_artefacts"
    ∧ _ensure_writable_dir noDirFS "r" ["build_artefacts"]
        = .error (.exception "mkdir failed") :=
  ⟨(ensure_writable_dir_creation_race raceFS "r" ["build_artefacts"]
      (.exception "mkdir failed") rfl rfl).1 rfl rfl rfl,
   (ensure_writable_dir_creation_race noDirFS "r" ["build_artefacts"]
      (.exception "mkdir failed") rfl rfl).2 rfl⟩

/-- C9: the environment overlay of `_run_one_linux_job` is a pure mapping
operation — a key's final value is the last value assigned to it in the
env-var sequence, keys not in the sequence keep their base value, and
overlaying `[("A","1"),("A","2")]` yields `A = 2`. -/
theorem buildEnv_overlay_mapping :
    (∀ (base : String → Option String) l k v,
        lastVal k l = some v → buildEnv base l k = some v)
    ∧ (∀ (base : String → Option String) l k,
        lastVal k l = none → buildEnv base l k = base k)
    ∧ (∀ base : String → Option String,
        buildEnv base [("A", "1"), ("A", "2")] "A" = some "2") := by
  refine ⟨?_, ?_, ?_⟩
  · intro base l k v h
    rw [buildEnv_lastVal k l base, h]
  · intro base l k h
    rw [buildEnv_lastVal k l base, h]
  · intro base
    rfl

/-- Witness for C9 at a concrete environment. -/
theorem buildEnv_overlay_mapping_w :
    buildEnv (fun _ => none) [("A", "1"), ("A", "2")] "A" = some "2" :=
  buildEnv_overlay_mapping.2.2 (fun _ => none)

/-- C10: `_collect_docker_info` substitutes defaults only on `IOError`;
a parse failure, a non-mapping document, or a non-mapping `docker` section
raise out of it, and through `_collect_linux_jobs` such an exception aborts
`run_linux_local` before any pull is issued or any job executes. -/
theorem collect_docker_info_error_scope :
    _collect_docker_info .ioError = .ok ("docker", "condaforge/linux-anvil")
    ∧ _collect_docker_info .parseFailure = .error .yamlError
    ∧ _collect_docker_info .scalar = .error .attributeError
    ∧ _collect_docker_info (.mapping (some .scalar)) = .error .attributeError
    ∧ (∀ (w : RunWorld) root nr nd nt safe only,
        rerenderStep nr w.rerender root = .ok () →
        (w.extract.condaForgeYml = .parseFailure →
            run_linux_local w root nr nd nt safe only
              = (.error .yamlError, ⟨[], [], []⟩))
        ∧ (w.extract.condaForgeYml = .scalar →
            run_linux_local w root nr nd nt safe only
              = (.error .attributeError, ⟨[], [], []⟩))) := by
  refine ⟨rfl, rfl, rfl, rfl, ?_⟩
  intro w root nr nd nt safe only hr
  constructor
  · intro hcfg
    have hc : _collect_linux_jobs w.extract root = .error .yamlError := by
      simp [_collect_linux_jobs, _collect_docker_info, hcfg]
    simp [run_linux_local, hr, hc]
  · intro hcfg
    have hc : _collect_linux_jobs w.extract root = .error .attributeError := by
      simp [_collect_linux_jobs, _collect_docker_info, hcfg]
    simp [run_linux_local, hr, hc]

/-- Witness for C10: a parse failure and a non-mapping document each abort
a concrete run before any pull or job execution. -/
theorem collect_docker_info_error_scope_w :
    run_linux_local parseFailRun "r" true false 1 true []
      = (.error .yamlError, ⟨[], [], []⟩)
    ∧ run_linux_local scalarCfgRun "r" true false 1 true []
      = (.error .attributeError, ⟨[], [], []⟩) :=
  ⟨(collect_docker_info_error_scope.2.2.2.2 parseFailRun "r" true false 1 true []
      rfl).1 rfl,
   (collect_docker_info_error_scope.2.2.2.2 scalarCfgRun "r" true false 1 true []
      rfl).2 rfl⟩

/-- C8: the filtering step retains exactly the jobs whose name is in the
filter or whose positional index — as a decimal string or as an integer —
is in the filter; an empty filter retains all jobs; the filtered list is
always a sublist (hence subset) of the extracted list and equals it when
the filter is empty. -/
theorem filterJobs_subset_exact (jobs : List LinuxJob) (only : List FilterElem) :
    (filterJobs jobs only).Sublist jobs
    ∧ (only = [] → filterJobs jobs only = jobs)
    ∧ (only ≠ [] → ∀ job, job ∈ filterJobs jobs only ↔
        ∃ k, ∃ h : k < jobs.length, jobs.get ⟨k, h⟩ = job ∧
          (nameInOnly job.name only || strIdxInOnly k only
            || intIdxInOnly k only) = true) := by
  refine ⟨?_, ?_, ?_⟩
  · by_cases h : only.isEmpty = true
    · rw [filterJobs, if_pos h]
    · rw [filterJobs, if_neg h]
      exact filterJobsAux_sublist only jobs 0
  · intro h
    subst h
    rfl
  · intro hne job
    have h : ¬(only.isEmpty = true) := by
      cases only with
      | nil => exact absurd rfl hne
      | cons a l => simp [List.isEmpty]
    rw [filterJobs, if_neg h]
    rw [mem_filterJobsAux only jobs 0]
    constructor
    · rintro ⟨k, hk, hget, hkeep⟩
      exact ⟨k, hk, hget, by simpa [keepJob] using hkeep⟩
    · rintro ⟨k, hk, hget, hkeep⟩
      exact ⟨k, hk, hget, by simpa [keepJob] using hkeep⟩

/-- Witness for C8: the empty filter retains both jobs of a concrete
two-job list, and a name filter retains exactly the named job. -/
theorem filterJobs_subset_exact_w :
    filterJobs [jobBeta, jobAlpha] [] = [jobBeta, jobAlpha]
    ∧ (jobAlpha ∈ filterJobs [jobBeta, jobAlpha] [.str "alpha"] ↔
        ∃ k, ∃ h : k < ([jobBeta, jobAlpha] : List LinuxJob).length,
          ([jobBeta, jobAlpha] : List LinuxJob).get ⟨k, h⟩ = jobAlpha ∧
          (nameInOnly jobAlpha.name [.str "alpha"] || strIdxInOnly k [.str "alpha"]
            || intIdxInOnly k [.str "alpha"]) = true) :=
  ⟨(filterJobs_subset_exact [jobBeta, jobAlpha] []).2.1 rfl,
   (filterJobs_subset_exact [jobBeta, jobAlpha] [.str "alpha"]).2.2
     (by simp) jobAlpha⟩

/-- C7: unless pulling is skipped, the pulled image list of the filtered
jobs is duplicate-free and ascending in Python tuple order, contains
exactly the `(executable, image)` pairs of the filtered jobs, and the pull
loop issues exactly that list, sequentially, when every pull exits 0; any
pull with non-zero exit aborts the run with no job executed. -/
theorem run_linux_local_pull_dedup_sorted_fatal
    (w : RunWorld) (root : String) (nr : Bool) (nt : Nat) (safe : Bool)
    (only : List FilterElem) (jobs0 : List LinuxJob) (j0 : LinuxJob)
    (rest : List LinuxJob)
    (hr : rerenderStep nr w.rerender root = .ok ())
    (hc : _collect_linux_jobs w.extract root = .ok jobs0)
    (hf : filterJobs jobs0 only = j0 :: rest) :
    ((imagesOf (j0 :: rest)).Nodup
      ∧ (imagesOf (j0 :: rest)).Pairwise (fun a b => pairLt a b = true)
      ∧ (∀ x, x ∈ imagesOf (j0 :: rest) ↔
          x ∈ (j0 :: rest).map fun j => (j.docker_executable, j.docker_image)))
    ∧ ((∀ p ∈ imagesOf (j0 :: rest), w.pull p.1 p.2 = .exit 0) →
        pullPhase false w.pull (j0 :: rest) = (.ok (), imagesOf (j0 :: rest)))
    ∧ (∀ e issued, pullPhase false w.pull (j0 :: rest) = (.error e, issued) →
        run_linux_local w root nr false nt safe only
          = (.error e, ⟨issued, [], []⟩)) := by
  refine ⟨⟨sortedSet_nodup _, sortedSet_pairwise _, fun x => mem_sortedSet _⟩, ?_, ?_⟩
  · intro hall
    rw [show pullPhase false w.pull (j0 :: rest)
          = pullLoop w.pull (imagesOf (j0 :: rest)) from rfl]
    exact pullLoop_all_ok w.pull (imagesOf (j0 :: rest)) hall
  · intro e issued hp
    simp only [run_linux_local, hr, hc, hf, hp]

/-- Witness for C7: two jobs sharing `(docker, condaforge/linux-anvil)`
trigger exactly one pull of that pair. -/
theorem run_linux_local_pull_dedup_sorted_fatal_w :
    (imagesOf [jobBeta, jobAlpha]).Nodup
    ∧ pullPhase false twoJobRun.pull [jobBeta, jobAlpha]
        = (.ok (), imagesOf [jobBeta, jobAlpha]) :=
  ⟨(run_linux_local_pull_dedup_sorted_fatal twoJobRun "r" true 1 true []
      [jobBeta, jobAlpha] jobBeta [jobAlpha] rfl rfl rfl).1.1,
   (run_linux_local_pull_dedup_sorted_fatal twoJobRun "r" true 1 true []
      [jobBeta, jobAlpha] jobBeta [jobAlpha] rfl rfl rfl).2.1
     (fun _ _ => rfl)⟩

/-- C5: when `safe` is true or the `src_cache` subdirectory of the artefact
root is absent, `run_linux_local` runs the first filtered job synchronously
before the pool, its result is first in the aggregated results, and the pool
then runs the same job again, so its result (and its name in the execution
order) appears twice. -/
theorem run_linux_local_warmup_duplicates_first_job
    (w : RunWorld) (root : String) (nr nd : Bool) (nt : Nat) (safe : Bool)
    (only : List FilterElem) (jobs0 : List LinuxJob) (j0 : LinuxJob)
    (rest : List LinuxJob) (issued : List (String × String)) (adir : String)
    (r0 r1 : JobResult) (prest : List JobResult) (pexec : List String)
    (hsafe : safe = true ∨ w.srcCacheIsDir = false)
    (hr : rerenderStep nr w.rerender root = .ok ())
    (hc : _collect_linux_jobs w.extract root = .ok jobs0)
    (hf : filterJobs jobs0 only = j0 :: rest)
    (hp : pullPhase nd w.pull (j0 :: rest) = (.ok (), issued))
    (ha : _ensure_writable_dir w.artefactsFS root ["build_artefacts"] = .ok adir)
    (hw : _run_one_linux_job w.warmJob j0 = .ok r0)
    (hpool : poolMapRun w.poolJob 0 (j0 :: rest) = (.ok (r1 :: prest), pexec)) :
    run_linux_local w root nr nd nt safe only
      = (.ok none, ⟨issued, j0.name :: pexec, r0 :: r1 :: prest⟩)
    ∧ r0.1 = j0 ∧ r1.1 = j0 := by
  refine ⟨?_, run_one_ok_fst hw, run_one_ok_fst (poolMapRun_cons_ok hpool)⟩
  have hcond : (safe || !w.srcCacheIsDir) = true := by
    rcases hsafe with h | h <;> simp [h]
  simp only [run_linux_local, hr, hc, hf, hp, ha, hcond, hw, hpool, if_true]
  rfl

/-- Witness for C5: an all-success one-job run with `safe = true` executes
`linux_64` twice — once as the warm-up, once in the pool — and both results
appear in the aggregated list, the warm-up result first. -/
theorem run_linux_local_warmup_duplicates_first_job_w :
    run_linux_local okRun "r" false false 1 true []
      = (.ok none,
         ⟨[("docker", "condaforge/linux-anvil")], ["linux_64", "linux_64"],
          [(job64, 0, log64), (job64, 0, log64)]⟩)
    ∧ ((job64, 0, log64) : JobResult).1 = job64
    ∧ ((job64, 0, log64) : JobResult).1 = job64 :=
  run_linux_local_warmup_duplicates_first_job okRun "r" false false 1 true []
    [job64] job64 [] [("docker", "condaforge/linux-anvil")] "r/build_artefacts"
    (job64, 0, log64) (job64, 0, log64) [] ["linux_64"]
    (Or.inl rfl) rfl rfl rfl rfl rfl rfl rfl

end RunLocalBuild
